import Mathlib

/-!
Verification of the cost-metrics exporters:
a shallow embedding of `cost-label-validation.py` and `budget-sync-metrics.py`,
with theorems settling the specified properties of their validation,
aggregation and log-parsing logic.
-/

namespace CostMetrics

/-! ## Embedding of cost-label-validation.py -/

/-- A resource's label mapping (Python dict of label key to value),
modelled as an association list with unique keys looked up by first match. -/
abbrev Labels := List (String × String)

def REQUIRED_COST_LABELS : List String :=
  ["cost.service", "cost.team", "cost.environment", "cost.costCenter", "cost.businessUnit"]

/-- Strip a literal from the front of the text, or fail. -/
def dropLit : List Char → List Char → Option (List Char)
  | [], s => some s
  | _ :: _, [] => none
  | a :: as, b :: bs => if a = b then dropLit as bs else none

/-- Embedding of `re.match(r'^CC-\d\x7b5\x7d$', value)`: the literal `CC-` followed by exactly
five digits, anchored at both ends. -/
def validate_cost_center_format (value : String) : Bool :=
  match dropLit "CC-".toList value.toList with
  | some rest => rest.length == 5 && rest.all Char.isDigit
  | none => false

def validate_business_unit_format (value : String) : Bool :=
  value.length != 0

def validate_environment_format (value : String) : Bool :=
  ["int-stable", "pre-stable", "prod"].contains value

def validate_label_value (label_key label_value : String) : Bool × String :=
  if label_value = "" then (false, "empty_value")
  else if label_key = "cost.costCenter" then
    if !validate_cost_center_format label_value then (false, "invalid_cc_format")
    else (true, "")
  else if label_key = "cost.environment" then
    if !validate_environment_format label_value then (false, "invalid_environment")
    else (true, "")
  else if label_key = "cost.businessUnit" then
    if !validate_business_unit_format label_value then (false, "empty_business_unit")
    else (true, "")
  else (true, "")

/-- A pod: only `pod.metadata.labels` is consulted; `none` models a `None` mapping. -/
structure Pod where
  labels : Option Labels
deriving Repr, DecidableEq

/-- A deployment: only `deployment.spec.template.metadata.labels` is consulted. -/
structure Deployment where
  labels : Option Labels
deriving Repr, DecidableEq

/-- One iteration of the required-label loop in `validate_pod_labels`:
absent keys are appended to `missing_labels`, present-but-invalid keys
(with the reason) to `invalid_labels`. -/
def podLabelScanStep (labels : Labels) (acc : List String × List (String × String))
    (required_label : String) : List String × List (String × String) :=
  match labels.lookup required_label with
  | none => (acc.1 ++ [required_label], acc.2)
  | some v =>
    let (is_valid, reason) := validate_label_value required_label v
    if is_valid then acc else (acc.1, acc.2 ++ [(required_label, reason)])

def podLabelScan (labels : Labels) : List String × List (String × String) :=
  REQUIRED_COST_LABELS.foldl (podLabelScanStep labels) ([], [])

/-- Function `validate_pod_labels`: returns `(has_all_valid, missing_labels ++ invalid
rendered as "key (reason)")`. -/
def validate_pod_labels (pod : Pod) : Bool × List String :=
  let labels := pod.labels.getD []
  let (missing_labels, invalid_labels) := podLabelScan labels
  (missing_labels.isEmpty && invalid_labels.isEmpty,
   missing_labels ++ invalid_labels.map (fun kr => kr.1 ++ " (" ++ kr.2 ++ ")"))

/-- Function `validate_deployment_labels`: presence check only. -/
def validate_deployment_labels (deployment : Deployment) : Bool × List String :=
  let labels := deployment.labels.getD []
  let missing_labels := REQUIRED_COST_LABELS.filter
    (fun required_label => (labels.lookup required_label).isNone)
  (missing_labels.isEmpty, missing_labels)

/-! ### The aggregation pass of run_validation -/

/-- Embedding of `d[k] = d.get(k, 0) + 1` on a Python dict, preserving insertion order. -/
def dictBump (m : List (String × Nat)) (k : String) : List (String × Nat) :=
  match m with
  | [] => [(k, 1)]
  | (k0, v) :: rest => if k0 = k then (k0, v + 1) :: rest else (k0, v) :: dictBump rest k

/-- Embedding of `if k in d: d[k] += 1` on a Python dict. -/
def bumpIfPresent (m : List (String × Nat)) (k : String) : List (String × Nat) :=
  match m with
  | [] => []
  | (k0, v) :: rest => if k0 = k then (k0, v + 1) :: rest else (k0, v) :: bumpIfPresent rest k

/-- Embedding of `missing_label.split(' (')[0]`: the text before the first occurrence of
the two-character separator. -/
def takeUntilParen : List Char → List Char
  | [] => []
  | [c] => [c]
  | c1 :: c2 :: rest =>
    if c1 = ' ' ∧ c2 = '(' then [] else c1 :: takeUntilParen (c2 :: rest)

/-- The key-extraction step of the pod loop:
`missing_label.split(' (')[0] if '(' in missing_label else missing_label`. -/
def extractLabelKey (missing_label : String) : String :=
  if missing_label.toList.contains '(' then String.mk (takeUntilParen missing_label.toList)
  else missing_label

/-- Dicts `pods_missing_by_label` (and `deployments_missing_by_label`) start with
every required key at 0. -/
def initMissing : List (String × Nat) :=
  REQUIRED_COST_LABELS.map (fun k => (k, 0))

/-- Embedding of `pod.metadata.labels.get('cost.environment', 'unknown') if pod.metadata.labels
else 'unknown'` (an absent or empty mapping is falsy). -/
def podEnv (pod : Pod) : String :=
  match pod.labels with
  | some ls => if ls.isEmpty then "unknown" else (ls.lookup "cost.environment").getD "unknown"
  | none => "unknown"

structure PodTally where
  pods_missing_by_label : List (String × Nat)
  pods_with_valid : Nat
  pods_by_env : List (String × Nat)
deriving Repr, DecidableEq

def initialPodTally : PodTally :=
  { pods_missing_by_label := initMissing, pods_with_valid := 0, pods_by_env := [] }

/-- One iteration of the pod loop in `run_validation`. -/
def podStep (t : PodTally) (pod : Pod) : PodTally :=
  let env := podEnv pod
  let t1 := { t with pods_by_env := dictBump t.pods_by_env env }
  let (has_all_labels, missing) := validate_pod_labels pod
  if has_all_labels then { t1 with pods_with_valid := t1.pods_with_valid + 1 }
  else
    { t1 with pods_missing_by_label :=
        (missing.foldl (fun m ml => bumpIfPresent m (extractLabelKey ml))
          t1.pods_missing_by_label) }

def podTally (pods : List Pod) : PodTally :=
  pods.foldl podStep initialPodTally

/-- The gauge values recorded at the end of a successful pod pass. -/
structure PodMetrics where
  pods_missing_cost_label : List (String × Nat)
  pods_with_valid_labels : Nat
  pods_by_environment : List (String × Nat)
  total_pods : Nat
  completeness : Rat
deriving Repr, DecidableEq

def podMetrics (pods : List Pod) : PodMetrics :=
  let t := podTally pods
  { pods_missing_cost_label := t.pods_missing_by_label
    pods_with_valid_labels := t.pods_with_valid
    pods_by_environment := t.pods_by_env
    total_pods := pods.length
    completeness :=
      if 0 < pods.length then (t.pods_with_valid : Rat) / (pods.length : Rat) else 1 }

/-- One iteration of the deployment loop: `(missing counts, valid count)`. -/
def depStep (t : List (String × Nat) × Nat) (d : Deployment) : List (String × Nat) × Nat :=
  let (has_all_labels, missing) := validate_deployment_labels d
  if has_all_labels then (t.1, t.2 + 1)
  else (missing.foldl bumpIfPresent t.1, t.2)

def depTally (ds : List Deployment) : List (String × Nat) × Nat :=
  ds.foldl depStep (initMissing, 0)

/-- The gauge values recorded at the end of a successful deployment pass. -/
structure DepMetrics where
  deployments_missing_cost_label : List (String × Nat)
  deployments_with_valid_labels : Nat
  total_deployments : Nat
  completeness : Rat
deriving Repr, DecidableEq

def depMetrics (ds : List Deployment) : DepMetrics :=
  let t := depTally ds
  { deployments_missing_cost_label := t.1
    deployments_with_valid_labels := t.2
    total_deployments := ds.length
    completeness :=
      if 0 < ds.length then (t.2 : Rat) / (ds.length : Rat) else 1 }

/-- Iterating the lister's sequence: the items up to the first raised error,
or failure if any item raises. -/
def materialize : List (Except Unit α) → Option (List α)
  | [] => some []
  | Except.error _ :: _ => none
  | Except.ok a :: rest => (materialize rest).map (a :: ·)

/-- The pod half of `run_validation`: the whole pass sits inside one
`try/except`, and the gauges are only set after the loop finishes, so a lister
failure anywhere in the pass (modelled as an `Except.error` item) means no pod
metrics are recorded at all (`none`). -/
def run_pod_validation (items : List (Except Unit Pod)) : Option PodMetrics :=
  (materialize items).map podMetrics

/-- The deployment half of `run_validation`, in its own `try/except`. -/
def run_deployment_validation (items : List (Except Unit Deployment)) : Option DepMetrics :=
  (materialize items).map depMetrics

/-- Function `run_validation`: the pod pass and the deployment pass run one after the
other, each in its own `try/except`, so their outcomes are independent. -/
def run_validation (podItems : List (Except Unit Pod))
    (depItems : List (Except Unit Deployment)) : Option PodMetrics × Option DepMetrics :=
  (run_pod_validation podItems, run_deployment_validation depItems)

/-! ## Embedding of budget-sync-metrics.py -/

/-- The status-code-to-label conversion inside `record_apptio_api_call`:
the branches are tested in source order, so the `elif status_code == 429`
branch is only reached when 429 escaped every earlier range test. -/
def record_apptio_api_call_status (status_code : Int) : String :=
  if 200 ≤ status_code ∧ status_code < 300 then "success"
  else if 400 ≤ status_code ∧ status_code < 500 then "client_error"
  else if 500 ≤ status_code ∧ status_code < 600 then "server_error"
  else if status_code = 429 then "rate_limited"
  else "unknown"

/-! ### Regular-expression extraction in _parse_log_entry

Each `re.search` is embedded as a scan over the character list: the pattern is
tried at every position from the left, and each pattern here starts with a
literal, continues with a greedy character class, and (except for `status`)
requires one fixed following character that the class excludes, so the match
at a position is the maximal class run at that position. -/

def isWordChar (c : Char) : Bool := c.isAlphanum || c = '_'

def isDigitDot (c : Char) : Bool := c.isDigit || c = '.'

/-- Embedding of `re.search`: try the position matcher at every position, leftmost first. -/
def reSearch (pat : List Char → Option α) : List Char → Option α
  | [] => pat []
  | c :: cs =>
    match pat (c :: cs) with
    | some a => some a
    | none => reSearch pat cs

/-- Pattern `status=(\w+)` at one position. -/
def matchStatusAt (s : List Char) : Option (List Char) :=
  match dropLit "status=".toList s with
  | none => none
  | some rest =>
    let w := rest.takeWhile isWordChar
    if w.isEmpty then none else some w

/-- Pattern `duration=([\d.]+)s` at one position. -/
def matchDurationAt (s : List Char) : Option (List Char) :=
  match dropLit "duration=".toList s with
  | none => none
  | some rest =>
    let run := rest.takeWhile isDigitDot
    if run.isEmpty then none
    else
      match rest.drop run.length with
      | '\x73' :: _ => some run
      | _ => none

/-- Pattern `services=\x7b([^\x7d]+)\x7d` at one position. -/
def matchServicesAt (s : List Char) : Option (List Char) :=
  match dropLit "services=\x7b".toList s with
  | none => none
  | some rest =>
    let run := rest.takeWhile (fun c => c ≠ '\x7d')
    if run.isEmpty then none
    else
      match rest.drop run.length with
      | '\x7d' :: _ => some run
      | _ => none

/-- Pattern `<lit>(\d+)/(\d+)` at one position, for `budgets=` and `alerts=`. -/
def matchCountsAt (lit : List Char) (s : List Char) : Option (List Char × List Char) :=
  match dropLit lit s with
  | none => none
  | some rest =>
    let d1 := rest.takeWhile Char.isDigit
    if d1.isEmpty then none
    else
      match rest.drop d1.length with
      | '/' :: rest2 =>
        let d2 := rest2.takeWhile Char.isDigit
        if d2.isEmpty then none else some (d1, d2)
      | _ => none

/-! ### Python string/number conversions used by the parser -/

def digitsToNat (ds : List Char) : Nat :=
  ds.foldl (fun n c => 10 * n + (c.toNat - 48)) 0

/-- Embedding of `str.strip()`: drop whitespace from both ends. -/
def pyStrip (s : List Char) : List Char :=
  ((s.dropWhile Char.isWhitespace).reverse.dropWhile Char.isWhitespace).reverse

/-- Embedding of `float(s)` on a string drawn from the class `[\d.]+`: defined exactly when
there is at least one digit and at most one dot. -/
def pyFloat (s : List Char) : Option Rat :=
  if s.all isDigitDot then
    let intPart := s.takeWhile Char.isDigit
    match s.drop intPart.length with
    | [] => if intPart.isEmpty then none else some (digitsToNat intPart : Rat)
    | '.' :: frac =>
      if frac.all Char.isDigit then
        if intPart.isEmpty && frac.isEmpty then none
        else some ((digitsToNat intPart : Rat) + (digitsToNat frac : Rat) / ((10 : Rat) ^ frac.length))
      else none
    | _ => none
  else none

/-- Embedding of `int(s)`: an optional sign followed by at least one digit. -/
def pyInt (s : List Char) : Option Int :=
  match s with
  | '+' :: ds => if !ds.isEmpty && ds.all Char.isDigit then some (digitsToNat ds : Int) else none
  | '-' :: ds => if !ds.isEmpty && ds.all Char.isDigit then some (-(digitsToNat ds : Int)) else none
  | ds => if !ds.isEmpty && ds.all Char.isDigit then some (digitsToNat ds : Int) else none

/-- Embedding of `d[k] = v` on a Python dict, preserving insertion order. -/
def dictSet (m : List (String × Int)) (k : String) (v : Int) : List (String × Int) :=
  match m with
  | [] => [(k, v)]
  | (k0, v0) :: rest => if k0 = k then (k0, v) :: rest else (k0, v0) :: dictSet rest k v

/-- The services loop: split the captured group on `,`; each piece must split
on `:` into exactly two parts whose count converts with `int`, otherwise the
unpacking or conversion raises and the whole parse fails. -/
def parseServices (inner : List Char) : Option (List (String × Int)) :=
  (inner.splitOn ',').foldlM
    (fun m env_count =>
      match (pyStrip env_count).splitOn ':' with
      | [env, count] =>
        (pyInt (pyStrip count)).map (fun n => dictSet m (String.mk (pyStrip env)) n)
      | _ => none)
    []

/-- One fully parsed sync operation, as handed to `record_sync_operation`. -/
structure SyncRecord where
  status : String
  duration_seconds : Rat
  services_synced : List (String × Int)
  budgets_created : Int
  budgets_failed : Int
  alerts_configured : Int
  alerts_failed : Int
deriving Repr, DecidableEq

/-- The services block: an absent `services=...` sub-pattern yields the empty
mapping, while a present-but-malformed one fails. -/
def servicesResult (s : List Char) : Option (List (String × Int)) :=
  match reSearch matchServicesAt s with
  | none => some []
  | some inner => parseServices inner

/-- The `budgets=a/b` and `alerts=a/b` blocks: an absent sub-pattern yields
`(0, 0)`; a present one yields `(created, total - created)`, the failure count
being derived, not parsed. -/
def countsResult (lit : List Char) (s : List Char) : Int × Int :=
  match reSearch (matchCountsAt lit) s with
  | none => (0, 0)
  | some (d1, d2) =>
    ((digitsToNat d1 : Int), (digitsToNat d2 : Int) - (digitsToNat d1 : Int))

/-- Function `_parse_log_entry`: the whole body sits in one `try/except`, so any failed
mandatory extraction, failed conversion, or malformed services entry aborts
the entry with no metrics recorded (`none`). -/
def _parse_log_entry (text : String) : Option SyncRecord :=
  (reSearch matchStatusAt text.toList).bind fun status =>
  (reSearch matchDurationAt text.toList).bind fun dstr =>
  (pyFloat dstr).bind fun duration =>
  (servicesResult text.toList).map fun services_synced =>
  { status := String.mk status
    duration_seconds := duration
    services_synced := services_synced
    budgets_created := (countsResult "budgets=".toList text.toList).1
    budgets_failed := (countsResult "budgets=".toList text.toList).2
    alerts_configured := (countsResult "alerts=".toList text.toList).1
    alerts_failed := (countsResult "alerts=".toList text.toList).2 }

/-- The collection loop of `collect_from_cloud_function_logs`: each entry is
parsed inside the parser's own `try/except`, so a failed entry is skipped and
the loop continues; `record_sync_operation` is invoked once per successful
parse, in order. -/
def collectEntries (entries : List String) : List SyncRecord :=
  entries.filterMap _parse_log_entry

/-! ## Concrete fixtures used in counterexamples and witnesses -/

/-- A label mapping that passes every pod-side rule. -/
def validLabels : Labels :=
  [("cost.service", "billing"), ("cost.team", "payments"), ("cost.environment", "prod"),
   ("cost.costCenter", "CC-12345"), ("cost.businessUnit", "retail")]

/-- All five required keys present, but `cost.costCenter` has an invalid value. -/
def invalidCCLabels : Labels :=
  [("cost.service", "billing"), ("cost.team", "payments"), ("cost.environment", "prod"),
   ("cost.costCenter", "CC-1"), ("cost.businessUnit", "retail")]

/-- Ten pods, three of which are fully valid. -/
def tenPods : List Pod :=
  List.replicate 3 ⟨some validLabels⟩ ++ List.replicate 7 ⟨none⟩

/-- A log entry with every sub-pattern present and well-formed. -/
def goodEntryA : String := "status=success, duration=1.5s, budgets=3/4, alerts=1/1"

/-- A log entry missing both mandatory sub-patterns. -/
def malformedEntry : String := "no fields here"

/-- A log entry with only the mandatory sub-patterns. -/
def goodEntryB : String := "status=failure, duration=2s"

/-- The record parsed from `goodEntryB`: optional sub-patterns default to 0. -/
def goodEntryBRecord : SyncRecord :=
  { status := "failure", duration_seconds := 2, services_synced := []
    budgets_created := 0, budgets_failed := 0, alerts_configured := 0, alerts_failed := 0 }

/-- Mandatory fields fine, but the services block has no `env:count` shape. -/
def badServicesText : String := "status=success, duration=5.0s, services=\x7bxyz\x7d"

/-- Mandatory fields fine, services block present with a non-colon separator. -/
def semiServicesText : String :=
  "status=success, duration=3s, services=\x7bpre-stable; 7\x7d"

/-- Line with `budgets=7/3`: more created than the reported total. -/
def overCountText : String := "status=failure, duration=5.1s, budgets=7/3, alerts=0/3"

/-- As `overCountText` but with an integral duration. -/
def overCountEntry : String := "status=failure, duration=5s, budgets=7/3, alerts=0/3"

/-- The record parsed from `overCountEntry`: `budgets_failed` is negative. -/
def overCountEntryRecord : SyncRecord :=
  { status := "failure", duration_seconds := 5, services_synced := []
    budgets_created := 7, budgets_failed := -4, alerts_configured := 0, alerts_failed := 3 }

/-- The failed-sync example line from the documentation. -/
def specExampleText : String :=
  "status=failure, duration=5.1s, services=\x7bint-stable: 2\x7d, budgets=2/5, alerts=0/3"

/-- A minimal parsable entry. -/
def simpleEntry : String := "status=x, duration=2s"

/-- The record parsed from `simpleEntry`. -/
def simpleEntryRecord : SyncRecord :=
  { status := "x", duration_seconds := 2, services_synced := []
    budgets_created := 0, budgets_failed := 0, alerts_configured := 0, alerts_failed := 0 }

/-- The per-key classifier of the required-label scan: `none` for present-and-
valid keys, the `(key, reason)` entry for present-but-invalid values. -/
def invalidEntry (labels : Labels) (k : String) : Option (String × String) :=
  match labels.lookup k with
  | none => none
  | some v => if (validate_label_value k v).1 then none else some (k, (validate_label_value k v).2)

/-- The reasons `validate_label_value` can report. -/
def invalidReasons : List String :=
  ["empty_value", "invalid_cc_format", "invalid_environment", "empty_business_unit"]

/-! ## Supporting lemmas -/

theorem dropLit_eq_some : ∀ (lit s r : List Char), dropLit lit s = some r ↔ s = lit ++ r
  | [], s, r => by simp [dropLit]
  | a :: as, [], r => by simp [dropLit]
  | a :: as, b :: bs, r => by
    by_cases hab : a = b
    · subst hab
      simp [dropLit, dropLit_eq_some as bs r]
    · simp only [dropLit, if_neg hab, List.cons_append]
      constructor
      · intro h
        exact absurd h (by simp)
      · intro h
        injection h with h1 h2
        exact absurd h1.symm hab

theorem podLabelScan_foldl (labels : Labels) :
    ∀ (ks : List String) (m : List String) (i : List (String × String)),
      ks.foldl (podLabelScanStep labels) (m, i) =
        (m ++ ks.filter (fun k => (labels.lookup k).isNone),
         i ++ ks.filterMap (invalidEntry labels))
  | [], m, i => by simp
  | k :: ks, m, i => by
    rcases hl : labels.lookup k with _ | v
    · rw [List.foldl_cons]
      have hstep : podLabelScanStep labels (m, i) k = (m ++ [k], i) := by
        simp [podLabelScanStep, hl]
      rw [hstep, podLabelScan_foldl labels ks]
      simp [List.filter_cons, List.filterMap_cons, hl, invalidEntry]
    · rw [List.foldl_cons]
      rcases hv : validate_label_value k v with ⟨valid, reason⟩
      cases valid
      · have hstep : podLabelScanStep labels (m, i) k = (m, i ++ [(k, reason)]) := by
          simp [podLabelScanStep, hl, hv]
        rw [hstep, podLabelScan_foldl labels ks]
        simp [List.filter_cons, List.filterMap_cons, hl, invalidEntry, hv]
      · have hstep : podLabelScanStep labels (m, i) k = (m, i) := by
          simp [podLabelScanStep, hl, hv]
        rw [hstep, podLabelScan_foldl labels ks]
        simp [List.filter_cons, List.filterMap_cons, hl, invalidEntry, hv]

theorem podLabelScan_spec (labels : Labels) :
    podLabelScan labels =
      (REQUIRED_COST_LABELS.filter (fun k => (labels.lookup k).isNone),
       REQUIRED_COST_LABELS.filterMap (invalidEntry labels)) := by
  rw [podLabelScan, podLabelScan_foldl]
  simp

/-! ## Claim theorems -/

/-- C1: the status-code-to-label mapping of `record_apptio_api_call` sends 429
to `client_error`, because the generic 4xx branch is tested before the
`status_code == 429` branch; consequently the label `rate_limited` is dead and
every status code maps into the four remaining labels. This contradicts the
claim that 429 maps to `rate_limited` with precedence over the 4xx bucket. -/
theorem C1_api_status_label :
    record_apptio_api_call_status 429 = "client_error" ∧
    ∀ c : Int, record_apptio_api_call_status c ∈
      (["success", "client_error", "server_error", "unknown"] : List String) := by
  refine ⟨by decide, fun c => ?_⟩
  unfold record_apptio_api_call_status
  split_ifs <;> simp_all

/-- C8: `validate_label_value` returns `(false, empty_value)` on the empty
value for every key, before any key-specific rule; on non-empty values the
`cost.costCenter` rule accepts exactly `CC-` followed by five digits and
otherwise reports `invalid_cc_format`. -/
theorem C8_label_value_rules :
    (∀ key : String, validate_label_value key "" = (false, "empty_value")) ∧
    (∀ value : String, value ≠ "" →
      (validate_cost_center_format value = true →
        validate_label_value "cost.costCenter" value = (true, "")) ∧
      (validate_cost_center_format value = false →
        validate_label_value "cost.costCenter" value = (false, "invalid_cc_format"))) ∧
    (∀ value : String, validate_cost_center_format value = true ↔
      ∃ ds : List Char, value.toList = 'C' :: 'C' :: '-' :: ds ∧
        ds.length = 5 ∧ ds.all Char.isDigit) ∧
    validate_label_value "cost.costCenter" "CC-12345" = (true, "") ∧
    validate_label_value "cost.costCenter" "CC-123" = (false, "invalid_cc_format") ∧
    validate_label_value "cost.costCenter" "" = (false, "empty_value") := by
  refine ⟨fun key => by simp [validate_label_value], fun value hv => ?_, fun value => ?_,
    by decide, by decide, by decide⟩
  · constructor <;> intro h <;> simp [validate_label_value, hv, h]
  · unfold validate_cost_center_format
    rcases hd : dropLit "CC-".toList value.toList with _ | rest
    · constructor
      · intro h
        exact absurd h (by simp)
      · rintro ⟨ds, hds, -, -⟩
        have hsome : dropLit "CC-".toList value.toList = some ds :=
          (dropLit_eq_some "CC-".toList value.toList ds).mpr (by simpa using hds)
        rw [hd] at hsome
        exact absurd hsome (by simp)
    · rw [dropLit_eq_some] at hd
      constructor
      · intro h
        refine ⟨rest, by simpa using hd, ?_, ?_⟩ <;> simp_all
      · rintro ⟨ds, hds, hlen, hdig⟩
        have hde : ds = rest := by
          rw [hds] at hd
          simpa using hd
        subst hde
        simp [hlen, hdig]

/-- C8 witness: the theorem applied at the non-empty values `CC-12345` and
`CC-123`, discharging the hypotheses concretely. -/
theorem C8_label_value_rules_witness :
    validate_label_value "cost.costCenter" "CC-12345" = (true, "") ∧
    validate_label_value "cost.costCenter" "CC-123" = (false, "invalid_cc_format") :=
  ⟨(C8_label_value_rules.2.1 "CC-12345" (by decide)).1 (by decide),
   (C8_label_value_rules.2.1 "CC-123" (by decide)).2 (by decide)⟩

/-- C6: `allValid` is `missing.isEmpty && invalid.isEmpty`, so it is true iff
both sets are empty; and a mapping lacking every required key yields exactly
five missing entries and `allValid = false`. -/
theorem C6_allValid_iff_empty :
    (∀ labels : Labels,
      ((validate_pod_labels ⟨some labels⟩).1 = true ↔
        (podLabelScan labels).1 = [] ∧ (podLabelScan labels).2 = [])) ∧
    (∀ labels : Labels, (∀ k ∈ REQUIRED_COST_LABELS, labels.lookup k = none) →
      (podLabelScan labels).1.length = 5 ∧ (validate_pod_labels ⟨some labels⟩).1 = false) := by
  constructor
  · intro labels
    rcases hscan : podLabelScan labels with ⟨m, i⟩
    simp [validate_pod_labels, hscan]
  · intro labels h
    have hfilter : REQUIRED_COST_LABELS.filter (fun k => (labels.lookup k).isNone) =
        REQUIRED_COST_LABELS := by
      refine List.filter_eq_self.mpr fun k hk => ?_
      simp [h k hk]
    have hm : (podLabelScan labels).1 = REQUIRED_COST_LABELS := by
      rw [podLabelScan_spec]
      simpa using hfilter
    refine ⟨by rw [hm]; decide, ?_⟩
    rcases hscan : podLabelScan labels with ⟨m, i⟩
    have : m = REQUIRED_COST_LABELS := by rw [hscan] at hm; simpa using hm
    subst this
    simp [validate_pod_labels, hscan]
    intro hfalse
    exact absurd hfalse (by decide)

/-- C6 witness: the empty mapping lacks every required key, has exactly five
missing entries and is not valid. -/
theorem C6_allValid_iff_empty_witness :
    (podLabelScan ([] : Labels)).1.length = 5 ∧
    (validate_pod_labels ⟨some ([] : Labels)⟩).1 = false :=
  C6_allValid_iff_empty.2 [] (by decide)

/-- C9: `validate_deployment_labels` checks presence of the five required keys
only: it reports valid iff every required key is present, regardless of the
values; the concrete mapping with all keys present but empty values is valid
for a deployment while `validate_pod_labels` rejects it. -/
theorem C9_deployment_presence_only :
    (∀ labels : Labels,
      ((validate_deployment_labels ⟨some labels⟩).1 = true ↔
        ∀ k ∈ REQUIRED_COST_LABELS, (labels.lookup k).isSome)) ∧
    (∀ labels : Labels, (∀ k ∈ REQUIRED_COST_LABELS, (labels.lookup k).isSome) →
      validate_deployment_labels ⟨some labels⟩ = (true, [])) ∧
    validate_deployment_labels ⟨some [("cost.service", ""), ("cost.team", ""),
      ("cost.environment", ""), ("cost.costCenter", ""), ("cost.businessUnit", "")]⟩ =
      (true, []) ∧
    (validate_pod_labels ⟨some [("cost.service", ""), ("cost.team", ""),
      ("cost.environment", ""), ("cost.costCenter", ""), ("cost.businessUnit", "")]⟩).1 =
      false := by
  have hnot : ∀ (o : Option String), (¬o.isNone = true) ↔ o.isSome = true := by
    intro o
    cases o <;> simp
  have hmain : ∀ labels : Labels,
      ((validate_deployment_labels ⟨some labels⟩).1 = true ↔
        ∀ k ∈ REQUIRED_COST_LABELS, (labels.lookup k).isSome) := by
    intro labels
    simp only [validate_deployment_labels, Option.getD_some, List.isEmpty_iff,
      List.filter_eq_nil_iff]
    constructor
    · intro h k hk
      exact (hnot _).mp (h k hk)
    · intro h k hk
      exact (hnot _).mpr (h k hk)
  refine ⟨hmain, fun labels h => ?_, by decide, by decide⟩
  have hfilter : REQUIRED_COST_LABELS.filter (fun k => (labels.lookup k).isNone) = [] := by
    refine List.filter_eq_nil_iff.mpr fun k hk => ?_
    exact (hnot _).mpr (h k hk)
  simp [validate_deployment_labels, hfilter]

/-- C9 witness: the theorem applied to a mapping whose required keys all carry
values that pod validation rejects (empty strings). -/
theorem C9_deployment_presence_only_witness :
    validate_deployment_labels ⟨some [("cost.service", ""), ("cost.team", ""),
      ("cost.environment", ""), ("cost.costCenter", ""), ("cost.businessUnit", "")]⟩ =
      (true, []) :=
  C9_deployment_presence_only.2.1 _ (by decide)

/-! ## Completeness-ratio lemmas -/

theorem podStep_valid_le (t : PodTally) (p : Pod) :
    (podStep t p).pods_with_valid ≤ t.pods_with_valid + 1 := by
  rcases h : validate_pod_labels p with ⟨b, ms⟩
  cases b <;> simp [podStep, h]

theorem foldl_podStep_valid : ∀ (pods : List Pod) (t : PodTally),
    (pods.foldl podStep t).pods_with_valid ≤ t.pods_with_valid + pods.length
  | [], t => by simp
  | p :: ps, t => by
    rw [List.foldl_cons]
    have h1 := foldl_podStep_valid ps (podStep t p)
    have h2 := podStep_valid_le t p
    simp only [List.length_cons]
    omega

theorem podTally_valid_le (pods : List Pod) :
    (podTally pods).pods_with_valid ≤ pods.length := by
  have := foldl_podStep_valid pods initialPodTally
  simpa [podTally, initialPodTally] using this

/-- C5: the completeness ratio of a completed pod scan is `validCount / totalCount`
when there are pods and `1` when there are none, and it always lies in `[0, 1]`;
concretely, ten pods with three valid give `0.3` and an empty fleet gives `1`. -/
theorem C5_completeness_in_unit_interval (pods : List Pod) :
    0 ≤ (podMetrics pods).completeness ∧ (podMetrics pods).completeness ≤ 1 ∧
    (podMetrics pods).completeness =
      (if 0 < pods.length
        then ((podTally pods).pods_with_valid : Rat) / (pods.length : Rat) else 1) ∧
    (podMetrics ([] : List Pod)).completeness = 1 ∧
    (podMetrics tenPods).pods_with_valid_labels = 3 ∧
    (podMetrics tenPods).completeness = 3 / 10 := by
  have hle := podTally_valid_le pods
  have h0 : 0 ≤ (podMetrics pods).completeness := by
    by_cases h : 0 < pods.length
    · simp only [podMetrics, if_pos h]
      exact div_nonneg (Nat.cast_nonneg _) (Nat.cast_nonneg _)
    · simp only [podMetrics, if_neg h]
      norm_num
  have h1 : (podMetrics pods).completeness ≤ 1 := by
    by_cases h : 0 < pods.length
    · simp only [podMetrics, if_pos h]
      rw [div_le_one (by exact_mod_cast h)]
      exact_mod_cast hle
    · simp only [podMetrics, if_neg h]
      exact le_refl 1
  have hv : (podTally tenPods).pods_with_valid = 3 := by decide
  have hl : tenPods.length = 10 := by decide
  refine ⟨h0, h1, by simp [podMetrics], by simp [podMetrics], by simp [podMetrics, hv], ?_⟩
  simp only [podMetrics, hv, hl]
  norm_num

/-! ## Failure semantics of run_validation -/

theorem materialize_error (pre : List Pod) (post : List (Except Unit Pod)) :
    materialize (pre.map Except.ok ++ Except.error () :: post) = none := by
  induction pre with
  | nil => simp [materialize]
  | cons p ps ih => simp [materialize, ih]

/-- C3 counterexample: with a pod lister that yields one fully valid pod and
then raises, `run_validation` records NO pod metrics at all (`none`), not the
partial tally accumulated before the failure — while the sibling deployment
pass still records its metrics. This refutes the claim that the partial tally
is still recorded. -/
theorem C3_lister_failure_counterexample :
    run_validation
        [Except.ok ⟨some validLabels⟩, Except.error (), Except.ok ⟨some validLabels⟩]
        [Except.ok (⟨some validLabels⟩ : Deployment)] =
      (none,
       some { deployments_missing_cost_label :=
                [("cost.service", 0), ("cost.team", 0), ("cost.environment", 0),
                 ("cost.costCenter", 0), ("cost.businessUnit", 0)]
              deployments_with_valid_labels := 1
              total_deployments := 1
              completeness := 1 }) := by
  have hdep : validate_deployment_labels (⟨some validLabels⟩ : Deployment) = (true, []) := by
    decide
  simp only [run_validation, Prod.mk.injEq]
  constructor
  · simp [run_pod_validation, materialize]
  · have hm : materialize [Except.ok (⟨some validLabels⟩ : Deployment)] =
        some [(⟨some validLabels⟩ : Deployment)] := by
      simp [materialize]
    rw [run_deployment_validation, hm]
    have ht : depTally [(⟨some validLabels⟩ : Deployment)] = (initMissing, 1) := by
      simp [depTally, depStep, hdep]
    simp only [Option.map_some', depMetrics, ht, Option.some.injEq]
    refine DepMetrics.mk.injEq .. ▸ ?_
    norm_num
    decide

/-- C3 amended: if the pod lister raises partway through the scan, the error is
caught (the run continues) but the pod pass records no metrics at all — the
recording happens inside the same `try` block, after the loop — while the
sibling deployment pass runs and records its metrics independently of the pod
failure. -/
theorem C3_failed_pod_pass_records_nothing (pre : List Pod) (post : List (Except Unit Pod))
    (deps : List (Except Unit Deployment)) :
    run_validation (pre.map Except.ok ++ Except.error () :: post) deps =
      (none, run_deployment_validation deps) := by
  unfold run_validation run_pod_validation
  rw [materialize_error]
  rfl

/-! ## Missing-count bookkeeping lemmas -/

theorem lookup_bumpIfPresent (m : List (String × Nat)) (a j : String) :
    List.lookup j (bumpIfPresent m a) =
      if j = a then (List.lookup j m).map (· + 1) else List.lookup j m := by
  induction m with
  | nil => by_cases h : j = a <;> simp [bumpIfPresent, h]
  | cons kv rest ih =>
    obtain ⟨k0, v⟩ := kv
    by_cases h1 : k0 = a
    · subst h1
      by_cases h2 : j = k0
      · subst h2
        simp [bumpIfPresent, List.lookup]
      · have hb2 : (j == k0) = false := beq_eq_false_iff_ne.mpr h2
        simp [bumpIfPresent, List.lookup, h2, hb2]
    · by_cases h2 : j = k0
      · subst h2
        simp [bumpIfPresent, h1, List.lookup]
      · have hb2 : (j == k0) = false := beq_eq_false_iff_ne.mpr h2
        simp [bumpIfPresent, h1, List.lookup, h2, hb2, ih]

theorem lookup_foldl_bump : ∀ (L : List String) (m : List (String × Nat)) (j : String),
    List.lookup j (L.foldl bumpIfPresent m) =
      (List.lookup j m).map (fun v => v + L.count j)
  | [], m, j => by simp
  | a :: L, m, j => by
    rw [List.foldl_cons, lookup_foldl_bump L (bumpIfPresent m a) j, lookup_bumpIfPresent]
    by_cases h : j = a
    · subst h
      cases hx : List.lookup j m <;> simp [List.count_cons, hx] <;> omega
    · have h2 : a ≠ j := fun hh => h hh.symm
      simp [h, List.count_cons, h2]

/-- For each required key: its initial count is 0, it occurs exactly once in
the required list, and `extractLabelKey` leaves it unchanged. -/
theorem required_key_facts (k : String) (hk : k ∈ REQUIRED_COST_LABELS) :
    List.lookup k initMissing = some 0 ∧ List.count k REQUIRED_COST_LABELS = 1 ∧
    extractLabelKey k = k := by
  simp only [REQUIRED_COST_LABELS, List.mem_cons, List.not_mem_nil, or_false] at hk
  rcases hk with rfl | rfl | rfl | rfl | rfl <;> exact ⟨by decide, by decide, by decide⟩

theorem validate_label_value_reason (key v : String)
    (h : (validate_label_value key v).1 = false) :
    (validate_label_value key v).2 ∈ invalidReasons := by
  unfold validate_label_value at h ⊢
  split_ifs at h ⊢ <;> simp_all [invalidReasons]

theorem extractLabelKey_fmt (k : String) (hk : k ∈ REQUIRED_COST_LABELS)
    (r : String) (hr : r ∈ invalidReasons) :
    extractLabelKey (k ++ " (" ++ r ++ ")") = k := by
  simp only [REQUIRED_COST_LABELS, List.mem_cons, List.not_mem_nil, or_false] at hk
  simp only [invalidReasons, List.mem_cons, List.not_mem_nil, or_false] at hr
  rcases hk with rfl | rfl | rfl | rfl | rfl <;> rcases hr with rfl | rfl | rfl | rfl <;> decide

theorem invalidEntry_fst (labels : Labels) (k : String) (kr : String × String)
    (h : invalidEntry labels k = some kr) : kr.1 = k := by
  unfold invalidEntry at h
  rcases hl : labels.lookup k with _ | v
  · rw [hl] at h
    dsimp only at h
    cases h
  · rw [hl] at h
    dsimp only at h
    split_ifs at h with hv <;> cases h <;> rfl

theorem invalidEntry_reason (labels : Labels) (k : String) (kr : String × String)
    (h : invalidEntry labels k = some kr) : kr.2 ∈ invalidReasons := by
  unfold invalidEntry at h
  rcases hl : labels.lookup k with _ | v
  · rw [hl] at h
    dsimp only at h
    cases h
  · rw [hl] at h
    dsimp only at h
    split_ifs at h with hv <;> cases h
    exact validate_label_value_reason k v (by simpa using hv)

theorem map_fst_filterMap_invalidEntry (labels : Labels) (l : List String) :
    (l.filterMap (invalidEntry labels)).map Prod.fst =
      l.filter (fun k => (invalidEntry labels k).isSome) := by
  induction l with
  | nil => simp
  | cons a l ih =>
    rcases h : invalidEntry labels a with _ | kr
    · simp [List.filterMap_cons, List.filter_cons, h, ih]
    · have ha := invalidEntry_fst labels a kr h
      simp [List.filterMap_cons, List.filter_cons, h, ih, ha]

theorem validate_pod_labels_fst (labels : Labels) :
    (validate_pod_labels ⟨some labels⟩).1 =
      ((podLabelScan labels).1.isEmpty && (podLabelScan labels).2.isEmpty) := by
  rcases h : podLabelScan labels with ⟨m, i⟩
  simp [validate_pod_labels, h]

theorem validate_pod_labels_snd (labels : Labels) :
    (validate_pod_labels ⟨some labels⟩).2 =
      (podLabelScan labels).1 ++
        (podLabelScan labels).2.map (fun kr => kr.1 ++ " (" ++ kr.2 ++ ")") := by
  rcases h : podLabelScan labels with ⟨m, i⟩
  simp [validate_pod_labels, h]

theorem podStep_missing (t : PodTally) (p : Pod) :
    (podStep t p).pods_missing_by_label =
      (if (validate_pod_labels p).1 then t.pods_missing_by_label
       else (validate_pod_labels p).2.foldl
              (fun m ml => bumpIfPresent m (extractLabelKey ml)) t.pods_missing_by_label) := by
  rcases h : validate_pod_labels p with ⟨b, ms⟩
  cases b <;> simp [podStep, h]

/-- C2 counterexample: a pod carrying all five required labels but an invalid
`cost.costCenter` value has an empty missing set, yet processing it increments
`pods_missing_by_label` for `cost.costCenter` — refuting the claim that a
present-but-invalid key never increments the missing count. -/
theorem C2_invalid_key_counterexample :
    (podLabelScan invalidCCLabels).1 = [] ∧
    List.lookup "cost.costCenter"
        (podStep initialPodTally ⟨some invalidCCLabels⟩).pods_missing_by_label = some 1 := by
  decide

/-- C2 amended: processing one pod increments `pods_missing_by_label[k]`
exactly for the required keys `k` that are either in the pod's missing set or
in its present-but-invalid set — the aggregator strips the " (reason)" suffix
from annotated invalid entries and increments the same counter for them. -/
theorem C2_missing_counts_include_invalid (labels : Labels) (k : String)
    (hk : k ∈ REQUIRED_COST_LABELS) :
    List.lookup k (podStep initialPodTally ⟨some labels⟩).pods_missing_by_label =
      some (if k ∈ (podLabelScan labels).1 ∨ k ∈ (podLabelScan labels).2.map Prod.fst
            then 1 else 0) := by
  obtain ⟨h0, hc1, -⟩ := required_key_facts k hk
  rcases hscan : podLabelScan labels with ⟨miss, inv⟩
  have hspec := podLabelScan_spec labels
  rw [hscan] at hspec
  injection hspec with hmiss hinv
  have hsnd := validate_pod_labels_snd labels
  rw [hscan] at hsnd
  have hfst := validate_pod_labels_fst labels
  rw [hscan] at hfst
  rw [podStep_missing]
  simp only [hscan]
  by_cases hb : (validate_pod_labels (⟨some labels⟩ : Pod)).1 = true
  · rw [if_pos hb]
    rw [hfst] at hb
    rw [Bool.and_eq_true, List.isEmpty_iff, List.isEmpty_iff] at hb
    obtain ⟨hm0, hi0⟩ := hb
    subst hm0
    subst hi0
    simpa [initialPodTally] using h0
  · rw [if_neg hb]
    rw [hsnd]
    have hinit : initialPodTally.pods_missing_by_label = initMissing := rfl
    rw [hinit, ← List.foldl_map extractLabelKey bumpIfPresent, lookup_foldl_bump, h0]
    have hmapmiss : miss.map extractLabelKey = miss := by
      have hcongr := List.map_congr_left (l := miss) (f := extractLabelKey) (g := id)
        (fun a ha => by
          have haR : a ∈ REQUIRED_COST_LABELS := by
            rw [hmiss] at ha
            exact (List.mem_filter.mp ha).1
          exact (required_key_facts a haR).2.2)
      simpa using hcongr
    have hmapinv : (inv.map (fun kr => kr.1 ++ " (" ++ kr.2 ++ ")")).map extractLabelKey =
        inv.map Prod.fst := by
      rw [List.map_map]
      refine List.map_congr_left fun kr hkr => ?_
      rw [hinv] at hkr
      obtain ⟨a, haR, hae⟩ := List.mem_filterMap.mp hkr
      have h1 := invalidEntry_fst labels a kr hae
      have h2 := invalidEntry_reason labels a kr hae
      show extractLabelKey (kr.1 ++ " (" ++ kr.2 ++ ")") = kr.1
      rw [h1]
      exact extractLabelKey_fmt a haR kr.2 h2
    rw [List.map_append, hmapmiss, hmapinv, List.count_append]
    have hinvkeys : inv.map Prod.fst =
        REQUIRED_COST_LABELS.filter (fun a => (invalidEntry labels a).isSome) := by
      rw [hinv]
      exact map_fst_filterMap_invalidEntry labels _
    have hcmiss : List.count k miss = if k ∈ miss then 1 else 0 := by
      by_cases hp : ((labels.lookup k).isNone : Bool) = true
      · have hmem : k ∈ miss := by
          rw [hmiss]
          exact List.mem_filter.mpr ⟨hk, hp⟩
        rw [if_pos hmem, hmiss,
          List.count_filter (p := fun a => (List.lookup a labels).isNone) hp, hc1]
      · have hmem : k ∉ miss := by
          rw [hmiss]
          intro hmem
          exact hp (List.mem_filter.mp hmem).2
        rw [if_neg hmem, List.count_eq_zero.mpr hmem]
    have hcinv : List.count k (inv.map Prod.fst) = if k ∈ inv.map Prod.fst then 1 else 0 := by
      by_cases hq : ((invalidEntry labels k).isSome : Bool) = true
      · have hmem : k ∈ inv.map Prod.fst := by
          rw [hinvkeys]
          exact List.mem_filter.mpr ⟨hk, hq⟩
        rw [if_pos hmem, hinvkeys,
          List.count_filter (p := fun a => (invalidEntry labels a).isSome) hq, hc1]
      · have hmem : k ∉ inv.map Prod.fst := by
          rw [hinvkeys]
          intro hmem
          exact hq (List.mem_filter.mp hmem).2
        rw [if_neg hmem, List.count_eq_zero.mpr hmem]
    have hexcl : ¬(k ∈ miss ∧ k ∈ inv.map Prod.fst) := by
      rintro ⟨m1, m2⟩
      have hp : ((labels.lookup k).isNone : Bool) = true := by
        rw [hmiss] at m1
        exact (List.mem_filter.mp m1).2
      have hq : ((invalidEntry labels k).isSome : Bool) = true := by
        rw [hinvkeys] at m2
        exact (List.mem_filter.mp m2).2
      rw [Option.isNone_iff_eq_none] at hp
      unfold invalidEntry at hq
      rw [hp] at hq
      simp at hq
    by_cases m1 : k ∈ miss <;> by_cases m2 : k ∈ inv.map Prod.fst
    · exact absurd ⟨m1, m2⟩ hexcl
    · simp [hcmiss, hcinv, m1, m2]
    · simp [hcmiss, hcinv, m1, m2]
    · simp [hcmiss, hcinv, m1, m2]

/-- C2 witness: the amended theorem applied to the invalid-cost-center pod,
discharging the required-key hypothesis at `cost.costCenter`. -/
theorem C2_missing_counts_include_invalid_witness :
    List.lookup "cost.costCenter"
        (podStep initialPodTally ⟨some invalidCCLabels⟩).pods_missing_by_label = some 1 := by
  rw [C2_missing_counts_include_invalid invalidCCLabels "cost.costCenter" (by decide)]
  decide

/-! ## Log-parser lemmas and claims -/

/-- Inversion of a successful parse: every field of the record comes from its
extraction step. -/
theorem parse_some_fields (text : String) (r : SyncRecord)
    (h : _parse_log_entry text = some r) :
    (∃ status, reSearch matchStatusAt text.toList = some status ∧
        r.status = String.mk status) ∧
    (∃ dstr dq, reSearch matchDurationAt text.toList = some dstr ∧
        pyFloat dstr = some dq ∧ r.duration_seconds = dq) ∧
    servicesResult text.toList = some r.services_synced ∧
    r.budgets_created = (countsResult "budgets=".toList text.toList).1 ∧
    r.budgets_failed = (countsResult "budgets=".toList text.toList).2 ∧
    r.alerts_configured = (countsResult "alerts=".toList text.toList).1 ∧
    r.alerts_failed = (countsResult "alerts=".toList text.toList).2 := by
  simp only [_parse_log_entry, Option.bind_eq_some, Option.map_eq_some'] at h
  obtain ⟨status, hs, dstr, hd, dq, hq, services, hsv, hr⟩ := h
  subst hr
  exact ⟨⟨status, hs, rfl⟩, ⟨dstr, dq, hd, hq, rfl⟩, hsv, rfl, rfl, rfl, rfl⟩

/-- C4: `status` and `duration` are mandatory — if either sub-pattern is
absent the whole parse fails; when the parse succeeds, an absent optional
sub-pattern yields the empty services mapping and zero budget/alert counts;
a failed entry is skipped without stopping the loop, so three entries with a
malformed one in the middle record exactly two SyncRecords. (The claim's
"iff" direction is refuted separately: extractable status and duration do not
guarantee a successful parse.) -/
theorem C4_mandatory_fields_and_defaults :
    (∀ text : String, reSearch matchStatusAt text.toList = none →
      _parse_log_entry text = none) ∧
    (∀ text : String, reSearch matchDurationAt text.toList = none →
      _parse_log_entry text = none) ∧
    (∀ (text : String) (r : SyncRecord), _parse_log_entry text = some r →
      reSearch matchServicesAt text.toList = none → r.services_synced = []) ∧
    (∀ (text : String) (r : SyncRecord), _parse_log_entry text = some r →
      reSearch (matchCountsAt "budgets=".toList) text.toList = none →
      r.budgets_created = 0 ∧ r.budgets_failed = 0) ∧
    (∀ (text : String) (r : SyncRecord), _parse_log_entry text = some r →
      reSearch (matchCountsAt "alerts=".toList) text.toList = none →
      r.alerts_configured = 0 ∧ r.alerts_failed = 0) ∧
    _parse_log_entry malformedEntry = none ∧
    (collectEntries [goodEntryA, malformedEntry, goodEntryB]).length = 2 ∧
    (collectEntries [goodEntryA, malformedEntry, goodEntryB]).map SyncRecord.status =
      ["success", "failure"] := by
  refine ⟨?_, ?_, ?_, ?_, ?_, by decide, by decide, by decide⟩
  · intro text h
    simp only [_parse_log_entry, h]
    rfl
  · intro text h
    rcases hs : reSearch matchStatusAt text.toList with _ | status
    · simp only [_parse_log_entry, hs]
      rfl
    · simp only [_parse_log_entry, hs, h]
      rfl
  · intro text r h hnone
    have hf := (parse_some_fields text r h).2.2.1
    simp only [servicesResult, hnone, Option.some.injEq] at hf
    exact hf.symm
  · intro text r h hnone
    have h1 := (parse_some_fields text r h).2.2.2.1
    have h2 := (parse_some_fields text r h).2.2.2.2.1
    simp only [countsResult, hnone] at h1 h2
    exact ⟨h1, h2⟩
  · intro text r h hnone
    have h1 := (parse_some_fields text r h).2.2.2.2.2.1
    have h2 := (parse_some_fields text r h).2.2.2.2.2.2
    simp only [countsResult, hnone] at h1 h2
    exact ⟨h1, h2⟩

/-- C4 counterexample to the "iff": in `badServicesText` both the status and
the duration sub-patterns extract (and the duration converts), yet the parse
fails as a whole because the present services block is malformed. -/
theorem C4_iff_counterexample :
    reSearch matchStatusAt badServicesText.toList = some "success".toList ∧
    reSearch matchDurationAt badServicesText.toList = some "5.0".toList ∧
    (pyFloat "5.0".toList).isSome = true ∧
    _parse_log_entry badServicesText = none := by
  decide

/-- C4 witness: the amended theorem applied at concrete entries, discharging
each hypothesis. -/
theorem C4_mandatory_fields_and_defaults_witness :
    _parse_log_entry malformedEntry = none ∧
    _parse_log_entry "status=partial" = none ∧
    goodEntryBRecord.services_synced = [] ∧
    (goodEntryBRecord.budgets_created = 0 ∧ goodEntryBRecord.budgets_failed = 0) ∧
    (goodEntryBRecord.alerts_configured = 0 ∧ goodEntryBRecord.alerts_failed = 0) :=
  ⟨C4_mandatory_fields_and_defaults.1 malformedEntry (by decide),
   C4_mandatory_fields_and_defaults.2.1 "status=partial" (by decide),
   C4_mandatory_fields_and_defaults.2.2.1 goodEntryB goodEntryBRecord
     (by decide) (by decide),
   C4_mandatory_fields_and_defaults.2.2.2.1 goodEntryB goodEntryBRecord
     (by decide) (by decide),
   C4_mandatory_fields_and_defaults.2.2.2.2.1 goodEntryB goodEntryBRecord
     (by decide) (by decide)⟩

/-- C7: on every successfully parsed line the failure counts are derived,
`budgetsFailed = budgetsTotal - budgetsCreated` and
`alertsFailed = alertsTotal - alertsConfigured`, and the created/configured
counts are non-negative; the documentation's failed-sync example yields
`budgetsFailed = 3` and `alertsFailed = 3`. (Unconditional non-negativity of
the failed counts is refuted separately.) -/
theorem C7_failed_counts_derived :
    (∀ (text : String) (r : SyncRecord), _parse_log_entry text = some r →
      0 ≤ r.budgets_created ∧ 0 ≤ r.alerts_configured ∧
      (∀ d1 d2, reSearch (matchCountsAt "budgets=".toList) text.toList = some (d1, d2) →
        r.budgets_created = (digitsToNat d1 : Int) ∧
        r.budgets_failed = (digitsToNat d2 : Int) - (digitsToNat d1 : Int)) ∧
      (∀ d1 d2, reSearch (matchCountsAt "alerts=".toList) text.toList = some (d1, d2) →
        r.alerts_configured = (digitsToNat d1 : Int) ∧
        r.alerts_failed = (digitsToNat d2 : Int) - (digitsToNat d1 : Int))) ∧
    (_parse_log_entry specExampleText).map SyncRecord.budgets_failed = some 3 ∧
    (_parse_log_entry specExampleText).map SyncRecord.alerts_failed = some 3 := by
  refine ⟨?_, by decide, by decide⟩
  intro text r h
  obtain ⟨-, -, -, hb1, hb2, ha1, ha2⟩ := parse_some_fields text r h
  refine ⟨?_, ?_, ?_, ?_⟩
  · rw [hb1]
    rcases hc : reSearch (matchCountsAt "budgets=".toList) text.toList with _ | ⟨d1, d2⟩
    · simp only [countsResult, hc]
      exact le_refl 0
    · simp only [countsResult, hc]
      exact Int.natCast_nonneg _
  · rw [ha1]
    rcases hc : reSearch (matchCountsAt "alerts=".toList) text.toList with _ | ⟨d1, d2⟩
    · simp only [countsResult, hc]
      exact le_refl 0
    · simp only [countsResult, hc]
      exact Int.natCast_nonneg _
  · intro d1 d2 hc
    simp only [countsResult, hc] at hb1 hb2
    exact ⟨hb1, hb2⟩
  · intro d1 d2 hc
    simp only [countsResult, hc] at ha1 ha2
    exact ⟨ha1, ha2⟩

/-- C7 counterexample: the line `budgets=7/3` parses successfully and records
`budgets_failed = -4`, a negative value, refuting the claim that all four
derived counts are always non-negative. -/
theorem C7_negative_failed_counterexample :
    (_parse_log_entry overCountText).map SyncRecord.budgets_created = some 7 ∧
    (_parse_log_entry overCountText).map SyncRecord.budgets_failed = some (-4) ∧
    ((-4 : Int) < 0) := by
  decide

/-- C7 witness: the amended theorem applied at `overCountEntry`, discharging
the parse and pattern hypotheses concretely. -/
theorem C7_failed_counts_derived_witness :
    0 ≤ overCountEntryRecord.budgets_created ∧
    (overCountEntryRecord.budgets_created = ((7 : Nat) : Int) ∧
     overCountEntryRecord.budgets_failed = ((3 : Nat) : Int) - ((7 : Nat) : Int)) := by
  have h := C7_failed_counts_derived.1 overCountEntry overCountEntryRecord (by decide)
  refine ⟨h.1, ?_⟩
  have h2 := h.2.2.1 "7".toList "3".toList (by decide)
  simpa using h2

/-- C10: parse failure is atomic — a present-but-malformed services block
makes the whole entry parse to `none`, so no metrics are recorded for it, and
every record the collection loop hands to the Metrics Recorder is the full
successful parse of one of the entries. -/
theorem C10_parse_failure_atomic :
    (∀ (text : String) (inner : List Char),
      reSearch matchServicesAt text.toList = some inner →
      parseServices inner = none → _parse_log_entry text = none) ∧
    (∀ (entries : List String) (r : SyncRecord), r ∈ collectEntries entries →
      ∃ text, text ∈ entries ∧ _parse_log_entry text = some r) ∧
    _parse_log_entry semiServicesText = none := by
  refine ⟨?_, ?_, by decide⟩
  · intro text inner h1 h2
    have hsv : servicesResult text.toList = none := by
      simp only [servicesResult, h1, h2]
    rcases hs : reSearch matchStatusAt text.toList with _ | status
    · simp only [_parse_log_entry, hs, Option.none_bind]
    rcases hd : reSearch matchDurationAt text.toList with _ | dstr
    · simp only [_parse_log_entry, hs, hd, Option.some_bind, Option.none_bind]
    rcases hf : pyFloat dstr with _ | dq
    · simp only [_parse_log_entry, hs, hd, hf, Option.some_bind, Option.none_bind]
    simp only [_parse_log_entry, hs, hd, hf, hsv, Option.some_bind, Option.none_bind,
      Option.map_none']
  · intro entries r hr
    simp only [collectEntries] at hr
    exact List.mem_filterMap.mp hr

/-- C10 witness: the theorem applied at concrete inputs — a malformed services
block aborts the parse, and a record produced by the loop comes from a
successful parse of its entry. -/
theorem C10_parse_failure_atomic_witness :
    _parse_log_entry "status=success, duration=3s, services=\x7bweird\x7d" = none ∧
    (∃ text, text ∈ [simpleEntry] ∧ _parse_log_entry text = some simpleEntryRecord) :=
  ⟨C10_parse_failure_atomic.1 "status=success, duration=3s, services=\x7bweird\x7d"
      "weird".toList (by decide) (by decide),
   C10_parse_failure_atomic.2.1 [simpleEntry] simpleEntryRecord (by decide)⟩

end CostMetrics
